import Mathlib

/-!
Verification development for the exchange-connectivity layer of the
trading-bot repository (C++ sources: BinanceRestClient.cpp,
BinanceWsClient.cpp, and the chart-symbol helpers of the main window).

The C++ layer is shallowly embedded: QString values become Lean strings
whose operations are re-implemented structurally over their character
lists; IEEE doubles become exact decimal numbers, which is faithful here
because this code only parses numbers and passes them through, never
computing with them; the JSON documents produced by the Qt parser become
an inductive tree; the asynchronous transport becomes an explicit reply
record consumed by the blocking fetch function.
-/

/-! ## QString operations, re-implemented structurally -/

/-- Whitespace trim on a character list, as QString trimmed does. -/
def trimChars (cs : List Char) : List Char :=
  ((cs.dropWhile Char.isWhitespace).reverse.dropWhile Char.isWhitespace).reverse

/-- Model of QString trimmed. -/
def qTrim (s : String) : String := ⟨trimChars s.data⟩

/-- Model of QString toUpper, character-wise. -/
def qToUpper (s : String) : String := ⟨s.data.map Char.toUpper⟩

/-- Model of QString toLower, character-wise. -/
def qToLower (s : String) : String := ⟨s.data.map Char.toLower⟩

/-- Model of QString remove of one character. -/
def qRemoveChar (s : String) (c : Char) : String := ⟨s.data.filter (fun x => x != c)⟩

/-- Model of QString endsWith. -/
def qEndsWith (s suffix : String) : Bool := suffix.data.isSuffixOf s.data

/-- Model of QString chop n, dropping the last n characters. -/
def qDropRight (s : String) (n : Nat) : String := ⟨s.data.take (s.data.length - n)⟩

/-- Model of QString contains for a single character. -/
def qContainsChar (s : String) (c : Char) : Bool := s.data.contains c

/-- Model of QString isEmpty via the character list. -/
def qIsEmpty (s : String) : Bool := s.data.isEmpty

/-- Code-unit lexicographic comparison of character lists, not strict:
true when the first list is less than or equal to the second, matching
the order induced by the QString less-than operator. -/
def charListLe : List Char → List Char → Bool
  | [], _ => true
  | _ :: _, [] => false
  | a :: as, b :: bs =>
    if a.toNat < b.toNat then true
    else if b.toNat < a.toNat then false
    else charListLe as bs

/-- Lexicographic less-or-equal on strings, the order used to sort the
symbol catalog. -/
def qLe (a b : String) : Bool := charListLe a.data b.data

/-! ## Exact decimal numbers standing in for IEEE doubles

The connectivity layer never performs arithmetic on the numbers it
parses; it only extracts them from JSON and hands them to the UI.  A
parsed double is therefore modelled exactly as a signed mantissa times a
power of ten. -/

/-- Exact decimal value: mant times ten to the exp10. -/
structure Dec where
  mant : Int
  exp10 : Int
deriving DecidableEq, Repr

/-- Decimal value of an integer. -/
def decInt (n : Int) : Dec := ⟨n, 0⟩

/-- ASCII digit test. -/
def isAsciiDigit (c : Char) : Bool := 48 ≤ c.toNat && c.toNat ≤ 57

/-- Accumulate a digit list into a natural number. -/
def digitsToNat (ds : List Char) : Nat :=
  ds.foldl (fun acc c => acc * 10 + (c.toNat - 48)) 0

/-- Strip one optional leading sign, reporting whether it was a minus. -/
def parseSign : List Char → (Bool × List Char)
  | '-' :: rest => (true, rest)
  | '+' :: rest => (false, rest)
  | cs => (false, cs)

/-- Decimal-string parser modelling QString toDouble: optional sign,
digits with an optional fraction part, optional exponent part, nothing
else; whitespace around the number is ignored by the caller via trim.
Returns none exactly when the conversion would fail. -/
def parseDecimalChars (cs : List Char) : Option Dec :=
  let s1 := parseSign cs
  let ip := s1.2.span isAsciiDigit
  let fp : List Char × List Char :=
    match ip.2 with
    | '.' :: rest => rest.span isAsciiDigit
    | _ => ([], ip.2)
  if ip.1.isEmpty && fp.1.isEmpty then none
  else
    let mant0 : Int := (digitsToNat (ip.1 ++ fp.1) : Int)
    let mant : Int := if s1.1 then -mant0 else mant0
    let baseExp : Int := -(fp.1.length : Int)
    match fp.2 with
    | [] => some ⟨mant, baseExp⟩
    | e :: rest =>
      if e == 'e' || e == 'E' then
        let s2 := parseSign rest
        let ep := s2.2.span isAsciiDigit
        if ep.1.isEmpty || !ep.2.isEmpty then none
        else
          let ex : Int := (digitsToNat ep.1 : Int)
          some ⟨mant, baseExp + (if s2.1 then -ex else ex)⟩
      else none

/-- Model of QString toDouble on a whole string. -/
def parseDecimal (s : String) : Option Dec := parseDecimalChars (trimChars s.data)

/-- Model of QString toLongLong: optional sign then digits, nothing
else. -/
def parseIntStr (s : String) : Option Int :=
  let cs := trimChars s.data
  let s1 := parseSign cs
  let dp := s1.2.span isAsciiDigit
  if dp.1.isEmpty || !dp.2.isEmpty then none
  else some (if s1.1 then -(digitsToNat dp.1 : Int) else (digitsToNat dp.1 : Int))

/-- Rounding of an exact decimal to a 64-bit integer value, modelling
the Qt conversion of a double to longlong, which rounds to the nearest
integer, halves away from zero. -/
def decRound64 (d : Dec) : Int :=
  match d.exp10 with
  | Int.ofNat k => d.mant * (10 : Int) ^ k
  | Int.negSucc k =>
    let den : Int := (10 : Int) ^ (k + 1)
    if 0 ≤ d.mant then (2 * d.mant + den) / (2 * den)
    else -((2 * (-d.mant) + den) / (2 * den))

/-! ## JSON documents as produced by the Qt parser -/

/-- JSON tree. Object fields are kept as an association list with
first-key-wins lookup, which agrees with the unique-key maps the Qt
parser produces. -/
inductive Json where
  | null
  | jbool (b : Bool)
  | num (v : Dec)
  | str (s : String)
  | arr (elems : List Json)
  | obj (fields : List (String × Json))

/-- Lookup of an object key, none when the key is absent, which models
the undefined QJsonValue. -/
def objValue : List (String × Json) → String → Option Json
  | [], _ => none
  | (k, v) :: rest, key => if k = key then some v else objValue rest key

/-- Model of QJsonValue toObject: the fields when the value is an
object, empty otherwise. -/
def jsonToObjFields : Json → List (String × Json)
  | Json.obj fields => fields
  | _ => []

/-- Model of QJsonValue toArray: the elements when the value is an
array, empty otherwise. -/
def jsonToArrElems : Json → List Json
  | Json.arr elems => elems
  | _ => []

/-- Model of QJsonValue toString on a possibly-absent value: the string
when it is one, empty otherwise. -/
def jsonValueToString : Option Json → String
  | some (Json.str s) => s
  | _ => ""

/-- Model of QJsonValue toString with a fallback default, used for the
exchange error envelope message. -/
def jsonValueToStringOr (v : Option Json) (dflt : String) : String :=
  match v with
  | some (Json.str s) => s
  | _ => dflt

/-- Model of the parseJsonNumber helper of BinanceRestClient.cpp:
QJsonValue toVariant toDouble with its ok flag.  A JSON number converts
directly, a string goes through the decimal parser, a boolean converts
to zero or one, anything else fails. -/
def parseJsonNumber : Option Json → Option Dec
  | some (Json.num d) => some d
  | some (Json.str s) => parseDecimal s
  | some (Json.jbool b) => some (if b then decInt 1 else decInt 0)
  | _ => none

/-- Model of QJsonValue toVariant toLongLong with its ok flag, used for
the kline open time. -/
def parseJsonInt : Option Json → Option Int
  | some (Json.num d) => some (decRound64 d)
  | some (Json.str s) => parseIntStr s
  | some (Json.jbool b) => some (if b then 1 else 0)
  | _ => none

/-! ## SyncJsonFetcher: the blocking HTTP GET of BinanceRestClient

The Qt transport is event driven; httpGetJson drives a local event loop
until either the reply finishes or a single-shot timer fires.  The
transport behaviour of one request is modelled as a reply record: the
time at which the transport would deliver the finished signal (none when
the server never responds), the transport error if any, the raw body
text, and the result of parsing the body as JSON. -/

/-- Behaviour of the underlying transport for one request. -/
structure TransportReply where
  finishAtMs : Option Int
  transportError : Option String
  payloadText : String
  payloadJson : Option Json

/-- Outcome of the blocking fetch: the categorized result together with
whether the in-flight request was aborted. -/
structure FetchOutcome where
  result : Except String Json
  aborted : Bool

/-- Wait deadline armed by httpGetJson before entering its event loop,
from the line timer.start of std::max of 1000 and timeoutMs. -/
def httpGetJsonWaitDeadline (timeoutMs : Int) : Int := max 1000 timeoutMs

/-- Model of BinanceRestClient httpGetJson.  The event loop exits when
the reply finishes or the armed timer fires, whichever first; a reply
still unfinished at that point is aborted and reported as a timeout; a
finished reply with a transport error yields the transport message with
the body text appended when non-empty; otherwise the body is parsed as
JSON and a parse failure is its own error. -/
def httpGetJson (timeoutMs : Int) (reply : TransportReply) : FetchOutcome :=
  let deadline := httpGetJsonWaitDeadline timeoutMs
  let finished : Bool :=
    match reply.finishAtMs with
    | some t => decide (t ≤ deadline)
    | none => false
  if !finished then ⟨Except.error "Request timeout", true⟩
  else
    match reply.transportError with
    | some msg =>
      ⟨Except.error (if qIsEmpty reply.payloadText then msg
                     else msg ++ " | " ++ reply.payloadText), false⟩
    | none =>
      match reply.payloadJson with
      | some doc => ⟨Except.ok doc, false⟩
      | none => ⟨Except.error "Invalid JSON response", false⟩

/-- Transport reply of a server that answers immediately with a JSON
document and no transport error. -/
def okReply (doc : Json) : TransportReply := ⟨some 0, none, "", some doc⟩

/-- Transport reply of a server that never responds. -/
def silentReply : TransportReply := ⟨none, none, "", none⟩

/-! ## Decimal digits rendering for the request urls -/

/-- Reversed decimal digits of a natural number, with fuel for
structural recursion. -/
def natToDigitsRev (fuel n : Nat) : List Char :=
  match fuel with
  | 0 => []
  | fuel' + 1 =>
    let d := Char.ofNat (48 + n % 10)
    if n < 10 then [d] else d :: natToDigitsRev fuel' (n / 10)

/-- Decimal rendering of a natural number. -/
def natToString (n : Nat) : String := ⟨(natToDigitsRev (n + 1) n).reverse⟩

/-- Decimal rendering of an integer, modelling QString number. -/
def intToString (n : Int) : String :=
  if n < 0 then "-" ++ natToString (-n).toNat else natToString n.toNat

/-! ## BalanceQuery: BinanceRestClient fetchUsdtBalance -/

/-- Result record of fetchUsdtBalance. -/
structure BalanceResult where
  ok : Bool
  usdtBalance : Dec
  error : String
deriving DecidableEq

/-- Base REST host selected by market kind and network, from the
conditional chain repeated in each query of BinanceRestClient.cpp. -/
def restBaseUrl (futures testnet : Bool) : String :=
  if futures then
    if testnet then "https://testnet.binancefuture.com" else "https://fapi.binance.com"
  else
    if testnet then "https://testnet.binance.vision" else "https://api.binance.com"

/-- Array elements of a possibly-absent JSON value, empty when absent
or not an array. -/
def jValueToArrElems (v : Option Json) : List Json :=
  match v with
  | some j => jsonToArrElems j
  | none => []

/-- Futures balance fields in the precedence order of the inner loop of
fetchUsdtBalance. -/
def futuresBalanceKeys : List String := ["walletBalance", "marginBalance", "availableBalance"]

/-- First balance field of an asset object that parses as a number,
tried in the given key order. -/
def firstBalanceField (asset : List (String × Json)) : List String → Option Dec
  | [] => none
  | key :: keys =>
    match parseJsonNumber (objValue asset key) with
    | some v => some v
    | none => firstBalanceField asset keys

/-- Scan of the futures assets array: the first USDT entry carrying any
parseable balance field wins; a USDT entry with no parseable field is
skipped, as the loop then falls through to the next entry. -/
def pickFuturesUsdt : List Json → Option Dec
  | [] => none
  | entry :: rest =>
    let asset := jsonToObjFields entry
    if jsonValueToString (objValue asset "asset") ≠ "USDT" then pickFuturesUsdt rest
    else
      match firstBalanceField asset futuresBalanceKeys with
      | some v => some v
      | none => pickFuturesUsdt rest

/-- Scan of the spot balances array for the free balance of the USDT
entry. -/
def pickSpotUsdt : List Json → Option Dec
  | [] => none
  | entry :: rest =>
    let balance := jsonToObjFields entry
    if jsonValueToString (objValue balance "asset") ≠ "USDT" then pickSpotUsdt rest
    else
      match parseJsonNumber (objValue balance "free") with
      | some v => some v
      | none => pickSpotUsdt rest

/-- Model of BinanceRestClient fetchUsdtBalance.  The HMAC signer and
the clock are passed as oracles since they live outside this layer; net
maps a request url to the transport behaviour for it.  The second
component records whether any network request was issued. -/
def fetchUsdtBalance (hmac : String → String → String) (nowMs : Int)
    (apiKey apiSecret : String) (futures testnet : Bool) (timeoutMs : Int)
    (net : String → TransportReply) : BalanceResult × Bool :=
  if qIsEmpty (qTrim apiKey) || qIsEmpty (qTrim apiSecret) then
    (⟨false, decInt 0, "Missing API credentials"⟩, false)
  else
    let base := restBaseUrl futures testnet
    let endpoint := if futures then "/fapi/v2/account" else "/api/v3/account"
    let query := "timestamp=" ++ intToString nowMs
    let signature := hmac apiSecret query
    let url := base ++ endpoint ++ "?" ++ query ++ "&signature=" ++ signature
    let fetched := httpGetJson timeoutMs (net url)
    match fetched.result with
    | Except.error e =>
      (⟨false, decInt 0, if qIsEmpty e then "Unexpected Binance response" else e⟩, true)
    | Except.ok doc =>
      match doc with
      | Json.obj fields =>
        match objValue fields "msg" with
        | some msgVal =>
          (⟨false, decInt 0, jsonValueToStringOr (some msgVal) "Binance API error"⟩, true)
        | none =>
          if futures then
            match pickFuturesUsdt (jValueToArrElems (objValue fields "assets")) with
            | some v => (⟨true, v, ""⟩, true)
            | none => (⟨false, decInt 0, "USDT balance not found"⟩, true)
          else
            match pickSpotUsdt (jValueToArrElems (objValue fields "balances")) with
            | some v => (⟨true, v, ""⟩, true)
            | none => (⟨false, decInt 0, "USDT balance not found"⟩, true)
      | _ => (⟨false, decInt 0, "Unexpected Binance response"⟩, true)

/-! ## SymbolCatalogQuery: BinanceRestClient fetchUsdtSymbols -/

/-- Result record of fetchUsdtSymbols. -/
structure SymbolsResult where
  ok : Bool
  symbols : List String
  error : String
deriving DecidableEq

/-- Allow-list check on the upper-cased trading status. -/
def symbolStatusAllowed (status : String) : Bool :=
  status == "TRADING" || status == "PENDING_TRADING"

/-- Allow-list check on the upper-cased futures contract type. -/
def contractTypeAllowed (ct : String) : Bool :=
  ct == "PERPETUAL" || ct == "CURRENT_QUARTER" || ct == "NEXT_QUARTER"

/-- One iteration of the collection loop of fetchUsdtSymbols: the
symbol of an exchange-info entry when every filter passes, none when
any continue fires.  Filters, in order: the quote asset is USDT; the
upper-cased status is in the allow-list; for futures, the upper-cased
contract type is in the allow-list; the symbol string is non-empty. -/
def collectSymbol (futures : Bool) (entry : Json) : Option String :=
  let sym := jsonToObjFields entry
  if jsonValueToString (objValue sym "quoteAsset") ≠ "USDT" then none
  else if !symbolStatusAllowed (qToUpper (jsonValueToString (objValue sym "status"))) then none
  else if futures && !contractTypeAllowed (qToUpper (jsonValueToString (objValue sym "contractType"))) then none
  else
    let symbol := jsonValueToString (objValue sym "symbol")
    if qIsEmpty symbol then none else some symbol

/-- Deduplication keeping first occurrences, as QStringList
removeDuplicates does, with an explicit seen accumulator. -/
def removeDuplicatesAux (seen : List String) : List String → List String
  | [] => []
  | x :: xs =>
    if x ∈ seen then removeDuplicatesAux seen xs
    else x :: removeDuplicatesAux (x :: seen) xs

/-- Model of QStringList removeDuplicates. -/
def removeDuplicates (l : List String) : List String := removeDuplicatesAux [] l

/-- Insertion into a sorted list under the lexicographic order. -/
def sortedInsert (a : String) : List String → List String
  | [] => [a]
  | b :: bs => if qLe a b then a :: b :: bs else b :: sortedInsert a bs

/-- Comparison sort under the lexicographic order, the specification of
the std::sort call of fetchUsdtSymbols. -/
def sortStrings : List String → List String
  | [] => []
  | x :: xs => sortedInsert x (sortStrings xs)

/-- Model of BinanceRestClient fetchUsdtSymbols. -/
def fetchUsdtSymbols (futures testnet : Bool) (timeoutMs : Int)
    (net : String → TransportReply) : SymbolsResult :=
  let base := restBaseUrl futures testnet
  let endpoint := if futures then "/fapi/v1/exchangeInfo" else "/api/v3/exchangeInfo"
  let url := base ++ endpoint
  let fetched := httpGetJson timeoutMs (net url)
  match fetched.result with
  | Except.error e =>
    ⟨false, [], if qIsEmpty e then "Unexpected Binance response" else e⟩
  | Except.ok doc =>
    match doc with
    | Json.obj fields =>
      match objValue fields "msg" with
      | some msgVal => ⟨false, [], jsonValueToStringOr (some msgVal) "Binance API error"⟩
      | none =>
        let collected :=
          (jValueToArrElems (objValue fields "symbols")).filterMap (collectSymbol futures)
        ⟨true, sortStrings (removeDuplicates collected), ""⟩
    | _ => ⟨false, [], "Unexpected Binance response"⟩

/-! ## KlineQuery: BinanceRestClient fetchKlines -/

/-- One OHLCV candle as parsed from a kline row. -/
structure KlineCandle where
  openTimeMs : Int
  «open» : Dec
  high : Dec
  low : Dec
  close : Dec
  volume : Dec
deriving DecidableEq

/-- Result record of fetchKlines. -/
structure KlinesResult where
  ok : Bool
  candles : List KlineCandle
  error : String
deriving DecidableEq

/-- Row parser of fetchKlines: a row survives exactly when it is an
array of at least six entries whose open time converts to an integer
and whose five OHLCV fields each parse as a number; any other row is
dropped by a continue. -/
def parseKlineRow (entry : Json) : Option KlineCandle :=
  match entry with
  | Json.arr row =>
    if row.length < 6 then none
    else
      match parseJsonInt row[0]?, parseJsonNumber row[1]?, parseJsonNumber row[2]?,
            parseJsonNumber row[3]?, parseJsonNumber row[4]?, parseJsonNumber row[5]? with
      | some t, some o, some h, some l, some c, some v => some ⟨t, o, h, l, c, v⟩
      | _, _, _, _, _, _ => none
  | _ => none

/-- Model of std::clamp on integers. -/
def stdClamp (v lo hi : Int) : Int :=
  if v < lo then lo else if hi < v then hi else v

/-- Kline request url with the already-clamped limit. -/
def klinesUrl (futures testnet : Bool) (cleanSymbol cleanInterval : String)
    (safeLimit : Int) : String :=
  restBaseUrl futures testnet
    ++ (if futures then "/fapi/v1/klines" else "/api/v3/klines")
    ++ "?symbol=" ++ cleanSymbol ++ "&interval=" ++ cleanInterval
    ++ "&limit=" ++ intToString safeLimit

/-- Model of BinanceRestClient fetchKlines. -/
def fetchKlines (symbol interval : String) (futures testnet : Bool)
    (limit timeoutMs : Int) (net : String → TransportReply) : KlinesResult :=
  let cleanSymbol := qToUpper (qTrim symbol)
  let cleanInterval := qTrim interval
  if qIsEmpty cleanSymbol then ⟨false, [], "Symbol is required"⟩
  else if qIsEmpty cleanInterval then ⟨false, [], "Interval is required"⟩
  else
    let safeLimit := stdClamp limit 10 1000
    let url := klinesUrl futures testnet cleanSymbol cleanInterval safeLimit
    let fetched := httpGetJson timeoutMs (net url)
    match fetched.result with
    | Except.error e =>
      ⟨false, [], if qIsEmpty e then "Unexpected Binance kline response" else e⟩
    | Except.ok doc =>
      match doc with
      | Json.arr rows =>
        let parsed := rows.filterMap parseKlineRow
        if parsed.isEmpty then
          ⟨false, [], "No candle data returned for " ++ cleanSymbol
                        ++ " (" ++ cleanInterval ++ ")"⟩
        else ⟨true, parsed, ""⟩
      | _ => ⟨false, [], "Unexpected Binance kline response"⟩

/-! ## StreamingTickerClient: BinanceWsClient -/

/-- Connection states of the underlying socket, collapsed to the
distinction the client code actually makes: the Qt unconnected state
versus any other state. -/
inductive SocketState where
  | unconnected
  | connecting
  | connected
deriving DecidableEq

/-- State of the streaming client: its single socket and the url the
socket was last opened on, if any. -/
structure WsClient where
  socketState : SocketState
  currentUrl : Option String
deriving DecidableEq

/-- Closing the socket returns it to the unconnected state and drops
the connection. -/
def closeSocket (_c : WsClient) : WsClient := ⟨SocketState.unconnected, none⟩

/-- Opening the socket on a url starts a fresh connection attempt. -/
def openSocket (_c : WsClient) (url : String) : WsClient :=
  ⟨SocketState.connecting, some url⟩

/-- Teardown step of connectBookTicker: close the socket first when it
is not already unconnected. -/
def closeIfOpen (c : WsClient) : WsClient :=
  if c.socketState ≠ SocketState.unconnected then closeSocket c else c

/-- Stream-symbol normalization of BinanceWsClient: trim, lower-case,
remove spaces. -/
def normalizedStreamSymbol (symbol : String) : String :=
  qRemoveChar (qToLower (qTrim symbol)) ' '

/-- Streaming host selected by market kind and network. -/
def wsBaseUrl (futures testnet : Bool) : String :=
  if futures then
    if testnet then "wss://stream.binancefuture.com/ws" else "wss://fstream.binance.com/ws"
  else
    if testnet then "wss://testnet.binance.vision/ws" else "wss://stream.binance.com:9443/ws"

/-- Full bookTicker stream url for an already-normalized symbol. -/
def bookTickerUrl (streamSymbol : String) (futures testnet : Bool) : String :=
  wsBaseUrl futures testnet ++ "/" ++ streamSymbol ++ "@bookTicker"

/-- Model of BinanceWsClient connectBookTicker: an empty normalized
symbol only emits an error and leaves the state alone; otherwise any
socket not already unconnected is closed first and the socket is opened
on the new stream url. -/
def connectBookTicker (c : WsClient) (symbol : String) (futures testnet : Bool) : WsClient :=
  let streamSymbol := normalizedStreamSymbol symbol
  if qIsEmpty streamSymbol then c
  else openSocket (closeIfOpen c) (bookTickerUrl streamSymbol futures testnet)

/-- Model of BinanceWsClient disconnectFromStream: close the socket
when it is not unconnected, otherwise do nothing. -/
def disconnectFromStream (c : WsClient) : WsClient :=
  if c.socketState ≠ SocketState.unconnected then closeSocket c else c

/-- Book-ticker update emitted to subscribers. -/
structure TickerUpdate where
  symbol : String
  bid : Dec
  ask : Dec
deriving DecidableEq

/-- Model of the textMessageReceived handler of BinanceWsClient.  The
argument is the result of parsing the inbound frame text with the Qt
JSON parser, none when the text is not well-formed JSON.  The handler
emits at most one update: exactly when the frame is an object whose
field s is a non-empty string and whose fields b and a both convert to
numbers. -/
def handleTextFrame (frame : Option Json) : Option TickerUpdate :=
  match frame with
  | some (Json.obj fields) =>
    let symbol := jsonValueToString (objValue fields "s")
    match parseJsonNumber (objValue fields "b"), parseJsonNumber (objValue fields "a") with
    | some bid, some ask =>
      if qIsEmpty symbol then none else some ⟨symbol, bid, ask⟩
    | _, _ => none
  | _ => none

/-- Frame delivery leaves the connection untouched: the handler only
parses and emits, it never closes or reopens the socket. -/
def textFrameStep (c : WsClient) (frame : Option Json) : WsClient × Option TickerUpdate :=
  (c, handleTextFrame frame)

/-! ## SymbolNormalizer: chart-symbol helpers of the main window -/

/-- Model of normalizeChartSymbol: trim, upper-case, strip slashes,
chop one trailing .P settlement suffix when present. -/
def normalizeChartSymbol (symbol : String) : String :=
  let out := qRemoveChar (qToUpper (qTrim symbol)) '/'
  if qEndsWith out ".P" then qDropRight out 2 else out

/-- Futures display form built where the symbol combo box is populated:
the raw symbol with the fixed .P suffix appended. -/
def futuresDisplaySymbol (raw : String) : String := raw ++ ".P"

/-- Quote-asset table of spotSymbolWithUnderscore, in source order;
ordering matters because some entries are suffixes of others. -/
def quoteAssets : List String :=
  ["USDT", "USDC", "BUSD", "FDUSD", "TUSD", "DAI", "USD", "BTC", "ETH", "BNB",
   "EUR", "TRY", "GBP", "AUD", "BRL", "RUB", "IDR", "UAH", "ZAR", "BIDR", "PAX"]

/-- Model of spotSymbolWithUnderscore: a symbol already containing an
underscore is returned unchanged; otherwise the first quote asset of
the table that is a proper suffix of the symbol gets an underscore
inserted before it; with no match the symbol is returned unchanged. -/
def spotSymbolWithUnderscore (symbol : String) : String :=
  if qContainsChar symbol '_' then symbol
  else
    match quoteAssets.find? (fun q => qEndsWith symbol q && q.data.length < symbol.data.length) with
    | some q => qDropRight symbol q.data.length ++ "_" ++ q
    | none => symbol


/-- Transport that answers every request immediately with the same
JSON document, used to drive the query models on synthetic payloads. -/
def constNet (doc : Json) : String → TransportReply := fun _ => okReply doc

/-- Well-formed kline row with the given open time: every OHLCV field
is a numeric string. -/
def goodRow (t : Int) : Json :=
  Json.arr [Json.num (decInt t), Json.str "1", Json.str "2", Json.str "0.5",
            Json.str "1.5", Json.str "100"]

/-- Kline row with the given open time whose close field is not a
number. -/
def badCloseRow (t : Int) : Json :=
  Json.arr [Json.num (decInt t), Json.str "1", Json.str "2", Json.str "0.5",
            Json.str "oops", Json.str "100"]

/-- Exchange-info payload wrapping a list of symbol entries. -/
def exchangeInfoPayload (entries : List Json) : Json :=
  Json.obj [("symbols", Json.arr entries)]

/-! ## Shared lemmas -/

/-- The fetch of an immediately-answering server always succeeds with
its document, for every timeout, because the armed deadline is at least
1000 milliseconds and hence nonnegative. -/
theorem httpGetJson_okReply (timeoutMs : Int) (doc : Json) :
    httpGetJson timeoutMs (okReply doc) = ⟨Except.ok doc, false⟩ := by
  have h0 : (0 : Int) ≤ httpGetJsonWaitDeadline timeoutMs :=
    le_trans (by norm_num) (le_max_left _ _)
  simp [httpGetJson, okReply, h0]

/-- A string is non-empty in the QString sense exactly when it is not
the empty string. -/
theorem qIsEmpty_eq_false (s : String) : qIsEmpty s = false ↔ s ≠ "" := by
  cases s with
  | mk data =>
    cases data <;> simp [qIsEmpty, String.ext_iff]

/-- Claim C1, corrected core: the wait deadline armed by httpGetJson is
the maximum of 1000 and the caller-supplied timeout, so it equals the
caller-supplied timeout exactly for timeouts of at least one second;
and whenever the transport has not finished by that deadline the fetch
aborts the request and returns the timeout error. -/
theorem httpGetJson_deadline_and_timeout (timeoutMs : Int) (reply : TransportReply) :
    httpGetJsonWaitDeadline timeoutMs = max 1000 timeoutMs
    ∧ (1000 ≤ timeoutMs → httpGetJsonWaitDeadline timeoutMs = timeoutMs)
    ∧ (reply.finishAtMs = none →
        httpGetJson timeoutMs reply = ⟨Except.error "Request timeout", true⟩)
    ∧ (∀ t, reply.finishAtMs = some t → httpGetJsonWaitDeadline timeoutMs < t →
        httpGetJson timeoutMs reply = ⟨Except.error "Request timeout", true⟩) := by
  refine ⟨rfl, fun h => max_eq_right h, fun h => ?_, fun t ht hlt => ?_⟩
  · simp [httpGetJson, h]
  · simp [httpGetJson, ht, not_le.mpr hlt]

/-- Witness for the corrected claim C1: with a 2000 ms timeout the armed
deadline is the caller value, and a 500 ms fetch against a server that
never answers returns the timeout error with the request aborted. -/
theorem httpGetJson_deadline_and_timeout_witness :
    ((1000 : Int) ≤ 2000 ∧ httpGetJsonWaitDeadline 2000 = 2000)
    ∧ httpGetJson 500 silentReply = ⟨Except.error "Request timeout", true⟩ :=
  ⟨⟨by decide, (httpGetJson_deadline_and_timeout 2000 silentReply).2.1 (by decide)⟩,
   (httpGetJson_deadline_and_timeout 500 silentReply).2.2.1 rfl⟩

/-- Counterexample to claim C1 as stated: 500 is a positive caller
timeout, yet the armed wait deadline is not 500 (it is 1000). -/
theorem httpGetJsonWaitDeadline_ne_caller :
    (0 : Int) < 500 ∧ httpGetJsonWaitDeadline 500 ≠ 500 := by decide

/-- Claim C8: with either credential blank (empty or whitespace-only
after trimming), fetchUsdtBalance fails with the missing-credentials
message and issues no network request, for every market selection,
network, timeout, clock, signer and transport behaviour. -/
theorem fetchUsdtBalance_blank_credentials (hmac : String → String → String)
    (nowMs : Int) (apiKey apiSecret : String) (futures testnet : Bool)
    (timeoutMs : Int) (net : String → TransportReply)
    (h : qTrim apiKey = "" ∨ qTrim apiSecret = "") :
    fetchUsdtBalance hmac nowMs apiKey apiSecret futures testnet timeoutMs net
      = (⟨false, decInt 0, "Missing API credentials"⟩, false) := by
  rcases h with h | h <;> simp [fetchUsdtBalance, h, qIsEmpty]

/-- Witness for claim C8 at a whitespace-only key. -/
theorem fetchUsdtBalance_blank_credentials_witness :
    fetchUsdtBalance (fun _ _ => "") 0 "   " "x" true false 10000 (fun _ => silentReply)
      = (⟨false, decInt 0, "Missing API credentials"⟩, false) :=
  fetchUsdtBalance_blank_credentials (fun _ _ => "") 0 "   " "x" true false 10000
    (fun _ => silentReply) (Or.inl (by decide))

/-- Claim C2: on a futures account payload the balance fields of the
USDT asset entry are tried in the fixed order walletBalance, then
marginBalance, then availableBalance, first parseable field wins; in
particular a payload carrying walletBalance ten and marginBalance
twenty yields ten. -/
theorem fetchUsdtBalance_futures_precedence
    (hmac : String → String → String) (nowMs : Int) (w m a : Dec) :
    (fetchUsdtBalance hmac nowMs "key" "secret" true false 10000
      (fun _ => okReply (Json.obj [("assets", Json.arr
        [Json.obj [("asset", Json.str "USDT"), ("walletBalance", Json.num w),
                   ("marginBalance", Json.num m), ("availableBalance", Json.num a)]])]))).1
      = ⟨true, w, ""⟩
    ∧ (fetchUsdtBalance hmac nowMs "key" "secret" true false 10000
      (fun _ => okReply (Json.obj [("assets", Json.arr
        [Json.obj [("asset", Json.str "USDT"),
                   ("marginBalance", Json.num m), ("availableBalance", Json.num a)]])]))).1
      = ⟨true, m, ""⟩
    ∧ (fetchUsdtBalance hmac nowMs "key" "secret" true false 10000
      (fun _ => okReply (Json.obj [("assets", Json.arr
        [Json.obj [("asset", Json.str "USDT"), ("availableBalance", Json.num a)]])]))).1
      = ⟨true, a, ""⟩
    ∧ (fetchUsdtBalance hmac nowMs "key" "secret" true false 10000
      (fun _ => okReply (Json.obj [("assets", Json.arr
        [Json.obj [("asset", Json.str "USDT"), ("walletBalance", Json.num (decInt 10)),
                   ("marginBalance", Json.num (decInt 20))]])]))).1
      = ⟨true, decInt 10, ""⟩ :=
  ⟨rfl, rfl, rfl, rfl⟩

/-- Claim C10: the requested kline count is clamped into the closed
interval from 10 to 1000 before the query is built, and the query
fetchKlines issues is exactly the url carrying that clamped limit: the
result depends on the transport only through its behaviour at that one
url. -/
theorem fetchKlines_limit_clamped :
    (∀ limit : Int,
      (10 ≤ stdClamp limit 10 1000 ∧ stdClamp limit 10 1000 ≤ 1000)
      ∧ (limit < 10 → stdClamp limit 10 1000 = 10)
      ∧ (1000 < limit → stdClamp limit 10 1000 = 1000)
      ∧ (10 ≤ limit → limit ≤ 1000 → stdClamp limit 10 1000 = limit))
    ∧ (∀ symbol interval futures testnet limit timeoutMs
        (net1 net2 : String → TransportReply),
        net1 (klinesUrl futures testnet (qToUpper (qTrim symbol)) (qTrim interval)
                (stdClamp limit 10 1000))
          = net2 (klinesUrl futures testnet (qToUpper (qTrim symbol)) (qTrim interval)
                (stdClamp limit 10 1000)) →
        fetchKlines symbol interval futures testnet limit timeoutMs net1
          = fetchKlines symbol interval futures testnet limit timeoutMs net2) := by
  constructor
  · intro limit
    by_cases h1 : limit < 10 <;> by_cases h2 : 1000 < limit <;>
      simp [stdClamp, h1, h2] <;> omega
  · intro symbol interval futures testnet limit timeoutMs net1 net2 h
    simp only [fetchKlines]
    split
    · rfl
    · split
      · rfl
      · rw [h]

/-- Witness for claim C10: a request for 5 candles is raised to 10, a
request for 2000 is lowered to 1000, and two transports agreeing on the
clamped url give identical results. -/
theorem fetchKlines_limit_clamped_witness :
    (((5 : Int) < 10 ∧ stdClamp 5 10 1000 = 10)
      ∧ ((1000 : Int) < 2000 ∧ stdClamp 2000 10 1000 = 1000))
    ∧ fetchKlines "BTCUSDT" "1m" true false 5 1000 (fun _ => silentReply)
        = fetchKlines "BTCUSDT" "1m" true false 5 1000 (fun _ => silentReply) :=
  ⟨⟨⟨by decide, (fetchKlines_limit_clamped.1 5).2.1 (by decide)⟩,
    ⟨by decide, (fetchKlines_limit_clamped.1 2000).2.2.1 (by decide)⟩⟩,
   fetchKlines_limit_clamped.2 "BTCUSDT" "1m" true false 5 1000 _ _ rfl⟩

/-- Claim C9: the client holds one socket; connectBookTicker always
goes through a state that is unconnected before opening the new stream
url, so the prior connection is torn down on every resubscribe, and
disconnectFromStream closes an open connection, is a no-op on an
unconnected one, and is idempotent. -/
theorem wsClient_single_connection (c : WsClient) (symbol : String)
    (futures testnet : Bool) :
    (closeIfOpen c).socketState = SocketState.unconnected
    ∧ (normalizedStreamSymbol symbol ≠ "" →
        connectBookTicker c symbol futures testnet
          = openSocket (closeIfOpen c)
              (bookTickerUrl (normalizedStreamSymbol symbol) futures testnet))
    ∧ disconnectFromStream (disconnectFromStream c) = disconnectFromStream c
    ∧ (c.socketState = SocketState.unconnected → disconnectFromStream c = c)
    ∧ (disconnectFromStream c).socketState = SocketState.unconnected := by
  refine ⟨?_, fun h => ?_, ?_, fun h => ?_, ?_⟩
  · by_cases h : c.socketState = SocketState.unconnected <;>
      simp [closeIfOpen, closeSocket, h]
  · simp [connectBookTicker, (qIsEmpty_eq_false _).mpr h]
  · by_cases h : c.socketState = SocketState.unconnected <;>
      simp [disconnectFromStream, closeSocket, h]
  · simp [disconnectFromStream, h]
  · by_cases h : c.socketState = SocketState.unconnected <;>
      simp [disconnectFromStream, closeSocket, h]

/-- Witness for claim C9: resubscribing over a connected socket tears
it down and opens the normalized stream url, and disconnecting an
already unconnected client changes nothing. -/
theorem wsClient_single_connection_witness :
    (normalizedStreamSymbol " BtC usdt " ≠ ""
      ∧ connectBookTicker ⟨SocketState.connected, some "old"⟩ " BtC usdt " true false
          = openSocket (closeIfOpen ⟨SocketState.connected, some "old"⟩)
              (bookTickerUrl (normalizedStreamSymbol " BtC usdt ") true false))
    ∧ ((⟨SocketState.unconnected, none⟩ : WsClient).socketState = SocketState.unconnected
      ∧ disconnectFromStream ⟨SocketState.unconnected, none⟩
          = (⟨SocketState.unconnected, none⟩ : WsClient)) :=
  ⟨⟨by decide,
    (wsClient_single_connection ⟨SocketState.connected, some "old"⟩ " BtC usdt " true false).2.1
      (by decide)⟩,
   ⟨rfl,
    (wsClient_single_connection ⟨SocketState.unconnected, none⟩ "x" false false).2.2.2.1 rfl⟩⟩

/-- Claim C7: canonicalization upper-cases, strips slashes and one
trailing settlement suffix; the futures display form appends the fixed
suffix; the spot display form inserts an underscore before the first
quote asset of the ordered table that is a proper suffix. -/
theorem symbolNormalizer_forms :
    normalizeChartSymbol "btcusdt" = "BTCUSDT"
    ∧ futuresDisplaySymbol (normalizeChartSymbol "btcusdt") = "BTCUSDT.P"
    ∧ spotSymbolWithUnderscore "BTCUSDT" = "BTC_USDT"
    ∧ normalizeChartSymbol "BTC/USDT" = "BTCUSDT"
    ∧ normalizeChartSymbol "btcusdt.p" = "BTCUSDT"
    ∧ normalizeChartSymbol "BTC.P.P" = "BTC.P"
    ∧ (∀ s, futuresDisplaySymbol s = s ++ ".P")
    ∧ (∀ s q, qContainsChar s '_' = false →
        quoteAssets.find? (fun q2 => qEndsWith s q2 && q2.data.length < s.data.length)
          = some q →
        spotSymbolWithUnderscore s = qDropRight s q.data.length ++ "_" ++ q) := by
  refine ⟨by decide, by decide, by decide, by decide, by decide, by decide,
    fun s => rfl, fun s q h1 h2 => ?_⟩
  simp only [spotSymbolWithUnderscore, h1, Bool.false_eq_true, if_false, h2]

/-- Witness for claim C7 at a symbol quoted in BTC: the first matching
quote asset of the table gets the underscore inserted before it. -/
theorem symbolNormalizer_forms_witness :
    (qContainsChar "ETHBTC" '_' = false
      ∧ quoteAssets.find?
          (fun q2 => qEndsWith "ETHBTC" q2 && q2.data.length < "ETHBTC".data.length)
          = some "BTC")
    ∧ spotSymbolWithUnderscore "ETHBTC" = "ETH_BTC" :=
  ⟨⟨by decide, by decide⟩,
   symbolNormalizer_forms.2.2.2.2.2.2.2 "ETHBTC" "BTC" (by decide) (by decide)⟩

/-- Claim C6: a text frame emits exactly one update when it parses to
an object whose field s is a non-empty string and whose fields b and a
both convert to numbers; every other frame (unparseable text, a
non-object document, or an object missing one of the pieces) emits
nothing; and frame delivery never changes the connection state.  The
two concrete conjuncts are the frames of the spec test: the complete
bookTicker frame for BTCUSDT emits its update, the frame carrying only
the symbol emits nothing. -/
theorem streamFrameHandling :
    (∀ fields bid ask,
      parseJsonNumber (objValue fields "b") = some bid →
      parseJsonNumber (objValue fields "a") = some ask →
      jsonValueToString (objValue fields "s") ≠ "" →
      handleTextFrame (some (Json.obj fields))
        = some ⟨jsonValueToString (objValue fields "s"), bid, ask⟩)
    ∧ (∀ fields,
        (jsonValueToString (objValue fields "s") = ""
          ∨ parseJsonNumber (objValue fields "b") = none
          ∨ parseJsonNumber (objValue fields "a") = none) →
        handleTextFrame (some (Json.obj fields)) = none)
    ∧ handleTextFrame none = none
    ∧ (∀ j, (∀ fields, j ≠ Json.obj fields) → handleTextFrame (some j) = none)
    ∧ (∀ c frame, textFrameStep c frame = (c, handleTextFrame frame))
    ∧ handleTextFrame (some (Json.obj
        [("s", Json.str "BTCUSDT"), ("b", Json.str "10"), ("a", Json.str "11")]))
      = some ⟨"BTCUSDT", decInt 10, decInt 11⟩
    ∧ handleTextFrame (some (Json.obj [("s", Json.str "BTCUSDT")])) = none := by
  refine ⟨fun fields bid ask hb ha hs => ?_, fun fields h => ?_, rfl,
    fun j h => ?_, fun c frame => rfl, by decide, by decide⟩
  · simp [handleTextFrame, hb, ha, (qIsEmpty_eq_false _).mpr hs]
  · rcases h with h | h | h
    · cases hb : parseJsonNumber (objValue fields "b") <;>
        cases ha : parseJsonNumber (objValue fields "a") <;>
        simp [handleTextFrame, hb, ha, h, qIsEmpty]
    · simp [handleTextFrame, h]
    · cases hb : parseJsonNumber (objValue fields "b") <;>
        simp [handleTextFrame, hb, h]
  · cases j <;> simp [handleTextFrame]
    exact absurd rfl (h _)

/-- Witness for claim C6: the well-formed-frame conjunct applied at the
concrete BTCUSDT bookTicker frame. -/
theorem streamFrameHandling_witness :
    (parseJsonNumber (objValue
        [("s", Json.str "BTCUSDT"), ("b", Json.str "10"), ("a", Json.str "11")] "b")
        = some (decInt 10)
      ∧ parseJsonNumber (objValue
        [("s", Json.str "BTCUSDT"), ("b", Json.str "10"), ("a", Json.str "11")] "a")
        = some (decInt 11)
      ∧ jsonValueToString (objValue
        [("s", Json.str "BTCUSDT"), ("b", Json.str "10"), ("a", Json.str "11")] "s") ≠ "")
    ∧ handleTextFrame (some (Json.obj
        [("s", Json.str "BTCUSDT"), ("b", Json.str "10"), ("a", Json.str "11")]))
      = some ⟨jsonValueToString (objValue
          [("s", Json.str "BTCUSDT"), ("b", Json.str "10"), ("a", Json.str "11")] "s"),
        decInt 10, decInt 11⟩ :=
  ⟨⟨by decide, by decide, by decide⟩,
   streamFrameHandling.1
     [("s", Json.str "BTCUSDT"), ("b", Json.str "10"), ("a", Json.str "11")]
     (decInt 10) (decInt 11) (by decide) (by decide) (by decide)⟩

/-- Fetching klines against a transport that answers with a JSON array
reduces to the row-parse filter: an error record naming the clean
symbol and interval when no row survives, the surviving candles
otherwise. -/
theorem fetchKlines_okArray (symbol interval : String) (futures testnet : Bool)
    (limit timeoutMs : Int) (rows : List Json)
    (h1 : qIsEmpty (qToUpper (qTrim symbol)) = false)
    (h2 : qIsEmpty (qTrim interval) = false) :
    fetchKlines symbol interval futures testnet limit timeoutMs (constNet (Json.arr rows))
      = if rows.filterMap parseKlineRow = [] then
          ⟨false, [], "No candle data returned for " ++ qToUpper (qTrim symbol)
            ++ " (" ++ qTrim interval ++ ")"⟩
        else ⟨true, rows.filterMap parseKlineRow, ""⟩ := by
  simp only [fetchKlines, h1, h2, Bool.false_eq_true, if_false, constNet]
  rw [httpGetJson_okReply]
  by_cases hp : rows.filterMap parseKlineRow = [] <;> simp [hp]

/-- Claim C3, amended core: with a well-formed symbol and interval and
an array response, a row failing to parse is dropped without failing
the operation; the whole fetch fails exactly when zero rows survive,
and on success the candles are exactly the surviving rows. -/
theorem fetchKlines_partial_rows (symbol interval : String) (futures testnet : Bool)
    (limit timeoutMs : Int) (rows : List Json)
    (h1 : qIsEmpty (qToUpper (qTrim symbol)) = false)
    (h2 : qIsEmpty (qTrim interval) = false) :
    ((fetchKlines symbol interval futures testnet limit timeoutMs
        (constNet (Json.arr rows))).ok = true
      ↔ rows.filterMap parseKlineRow ≠ [])
    ∧ (rows.filterMap parseKlineRow ≠ [] →
        fetchKlines symbol interval futures testnet limit timeoutMs
            (constNet (Json.arr rows))
          = ⟨true, rows.filterMap parseKlineRow, ""⟩)
    ∧ (rows.filterMap parseKlineRow = [] →
        fetchKlines symbol interval futures testnet limit timeoutMs
            (constNet (Json.arr rows))
          = ⟨false, [], "No candle data returned for " ++ qToUpper (qTrim symbol)
              ++ " (" ++ qTrim interval ++ ")"⟩) := by
  rw [fetchKlines_okArray symbol interval futures testnet limit timeoutMs rows h1 h2]
  by_cases hp : rows.filterMap parseKlineRow = [] <;> simp [hp]

/-- Counterexample to claim C3 as stated: five well-formed rows plus
one row with a non-numeric close succeed with five candles, not
four. -/
theorem fetchKlines_spec_test_count :
    (fetchKlines "BTCUSDT" "1m" true false 300 10000
        (constNet (Json.arr [goodRow 1, goodRow 2, goodRow 3, goodRow 4,
          goodRow 5, badCloseRow 6]))).ok = true
    ∧ (fetchKlines "BTCUSDT" "1m" true false 300 10000
        (constNet (Json.arr [goodRow 1, goodRow 2, goodRow 3, goodRow 4,
          goodRow 5, badCloseRow 6]))).candles.length = 5
    ∧ (fetchKlines "BTCUSDT" "1m" true false 300 10000
        (constNet (Json.arr [goodRow 1, goodRow 2, goodRow 3, goodRow 4,
          goodRow 5, badCloseRow 6]))).candles.length ≠ 4 := by
  decide

/-- Witness for the amended claim C3 at the spec test input: the bad
row is dropped, the fetch succeeds with exactly the surviving rows. -/
theorem fetchKlines_partial_rows_witness :
    (qIsEmpty (qToUpper (qTrim "BTCUSDT")) = false
      ∧ qIsEmpty (qTrim "1m") = false
      ∧ [goodRow 1, goodRow 2, goodRow 3, goodRow 4, goodRow 5,
          badCloseRow 6].filterMap parseKlineRow ≠ [])
    ∧ fetchKlines "BTCUSDT" "1m" true false 300 10000
        (constNet (Json.arr [goodRow 1, goodRow 2, goodRow 3, goodRow 4,
          goodRow 5, badCloseRow 6]))
      = ⟨true, [goodRow 1, goodRow 2, goodRow 3, goodRow 4, goodRow 5,
          badCloseRow 6].filterMap parseKlineRow, ""⟩ :=
  ⟨⟨by decide, by decide, by decide⟩,
   (fetchKlines_partial_rows "BTCUSDT" "1m" true false 300 10000
     [goodRow 1, goodRow 2, goodRow 3, goodRow 4, goodRow 5, badCloseRow 6]
     (by decide) (by decide)).2.1 (by decide)⟩

/-- Claim C4, amended core: a successful kline result is non-empty and
every candle is the successful parse of some source row (bad rows were
dropped, nothing was coerced); the candle order is the source order, so
open times are non-decreasing whenever the parses of the source rows
are pairwise non-decreasing.  The code does not itself re-sort or
reject out-of-order responses. -/
theorem fetchKlines_success_invariant (symbol interval : String) (futures testnet : Bool)
    (limit timeoutMs : Int) (rows : List Json)
    (h1 : qIsEmpty (qToUpper (qTrim symbol)) = false)
    (h2 : qIsEmpty (qTrim interval) = false)
    (hok : (fetchKlines symbol interval futures testnet limit timeoutMs
        (constNet (Json.arr rows))).ok = true) :
    (fetchKlines symbol interval futures testnet limit timeoutMs
        (constNet (Json.arr rows))).candles ≠ []
    ∧ (∀ c ∈ (fetchKlines symbol interval futures testnet limit timeoutMs
        (constNet (Json.arr rows))).candles, ∃ r ∈ rows, parseKlineRow r = some c)
    ∧ (rows.Pairwise (fun r1 r2 => ∀ c1 c2, parseKlineRow r1 = some c1 →
          parseKlineRow r2 = some c2 → c1.openTimeMs ≤ c2.openTimeMs) →
        List.Sorted (fun x y : Int => x ≤ y)
          ((fetchKlines symbol interval futures testnet limit timeoutMs
            (constNet (Json.arr rows))).candles.map KlineCandle.openTimeMs)) := by
  have heq := fetchKlines_okArray symbol interval futures testnet limit timeoutMs rows h1 h2
  by_cases hp : rows.filterMap parseKlineRow = []
  · rw [heq] at hok
    simp [hp] at hok
  · rw [heq]
    simp only [hp, if_false]
    refine ⟨hp, fun c hc => ?_, fun hpw => ?_⟩
    · rcases List.mem_filterMap.mp hc with ⟨r, hr, hpr⟩
      exact ⟨r, hr, hpr⟩
    · refine List.pairwise_map.mpr ?_
      exact List.pairwise_filterMap.mpr
        (hpw.imp fun h c1 hc1 c2 hc2 => h c1 c2 (Option.mem_def.mp hc1) (Option.mem_def.mp hc2))

/-- Counterexample to claim C4 as stated: an array response whose rows
carry open times two then one parses fully, so the fetch succeeds, yet
the successful candle sequence is not ordered by non-decreasing open
time. -/
theorem fetchKlines_order_not_validated :
    (fetchKlines "BTCUSDT" "1m" true false 300 10000
        (constNet (Json.arr [goodRow 2, goodRow 1]))).ok = true
    ∧ ¬ List.Sorted (fun x y : Int => x ≤ y)
        ((fetchKlines "BTCUSDT" "1m" true false 300 10000
          (constNet (Json.arr [goodRow 2, goodRow 1]))).candles.map KlineCandle.openTimeMs) := by
  constructor
  · decide
  · decide

/-- Witness for the amended claim C4 at an in-order response: success,
non-empty candles, and the sortedness carried over from the source
order. -/
theorem fetchKlines_success_invariant_witness :
    (fetchKlines "BTCUSDT" "1m" true false 300 10000
        (constNet (Json.arr [goodRow 1, goodRow 2]))).ok = true
    ∧ (fetchKlines "BTCUSDT" "1m" true false 300 10000
        (constNet (Json.arr [goodRow 1, goodRow 2]))).candles ≠ []
    ∧ List.Sorted (fun x y : Int => x ≤ y)
        ((fetchKlines "BTCUSDT" "1m" true false 300 10000
          (constNet (Json.arr [goodRow 1, goodRow 2]))).candles.map KlineCandle.openTimeMs) := by
  have h := fetchKlines_success_invariant "BTCUSDT" "1m" true false 300 10000
    [goodRow 1, goodRow 2] (by decide) (by decide) (by decide)
  refine ⟨by decide, h.1, h.2.2 ?_⟩
  refine List.pairwise_pair.mpr ?_
  intro c1 c2 hc1 hc2
  have e1 : parseKlineRow (goodRow 1)
      = some ⟨1, ⟨1, 0⟩, ⟨2, 0⟩, ⟨5, -1⟩, ⟨15, -1⟩, ⟨100, 0⟩⟩ := by decide
  have e2 : parseKlineRow (goodRow 2)
      = some ⟨2, ⟨1, 0⟩, ⟨2, 0⟩, ⟨5, -1⟩, ⟨15, -1⟩, ⟨100, 0⟩⟩ := by decide
  rw [e1] at hc1
  rw [e2] at hc2
  cases hc1
  cases hc2
  decide

/-- The lexicographic comparison is total. -/
theorem charListLe_total : ∀ as bs, charListLe as bs = true ∨ charListLe bs as = true := by
  intro as
  induction as with
  | nil => intro bs; left; rfl
  | cons a as ih =>
    intro bs
    cases bs with
    | nil => right; rfl
    | cons b bs =>
      by_cases h1 : a.toNat < b.toNat
      · left; simp [charListLe, h1]
      · by_cases h2 : b.toNat < a.toNat
        · right; simp [charListLe, h2]
        · rcases ih bs with h | h
          · left; simp [charListLe, h1, h2, h]
          · right; simp [charListLe, h1, h2, h]

/-- The lexicographic comparison is transitive. -/
theorem charListLe_trans :
    ∀ as bs cs, charListLe as bs = true → charListLe bs cs = true →
      charListLe as cs = true := by
  intro as
  induction as with
  | nil => intro bs cs _ _; rfl
  | cons a as ih =>
    intro bs cs hab hbc
    cases bs with
    | nil => simp [charListLe] at hab
    | cons b bs =>
      cases cs with
      | nil => simp [charListLe] at hbc
      | cons c cs =>
        rcases Nat.lt_trichotomy a.toNat b.toNat with h1 | h1 | h1
        · rcases Nat.lt_trichotomy b.toNat c.toNat with h2 | h2 | h2
          · simp [charListLe, Nat.lt_trans h1 h2]
          · simp [charListLe, h2 ▸ h1]
          · simp [charListLe, Nat.lt_asymm h2, h2] at hbc
        · rcases Nat.lt_trichotomy b.toNat c.toNat with h2 | h2 | h2
          · simp [charListLe, h1 ▸ h2]
          · have hac : a.toNat = c.toNat := h1.trans h2
            have hab' : charListLe as bs = true := by
              simpa [charListLe, h1, Nat.lt_irrefl] using hab
            have hbc' : charListLe bs cs = true := by
              simpa [charListLe, h2, Nat.lt_irrefl] using hbc
            simp [charListLe, hac, Nat.lt_irrefl, ih bs cs hab' hbc']
          · simp [charListLe, Nat.lt_asymm h2, h2] at hbc
        · simp [charListLe, Nat.lt_asymm h1, h1] at hab

/-- Inserting into a list is a permutation of consing. -/
theorem sortedInsert_perm (a : String) (l : List String) :
    (sortedInsert a l).Perm (a :: l) := by
  induction l with
  | nil => exact List.Perm.refl _
  | cons b bs ih =>
    simp only [sortedInsert]
    by_cases h : qLe a b = true
    · simp [h]
    · simp only [h, if_false]
      exact (ih.cons b).trans (List.Perm.swap a b bs)

/-- The insertion sort permutes its input. -/
theorem sortStrings_perm (l : List String) : (sortStrings l).Perm l := by
  induction l with
  | nil => exact List.Perm.refl _
  | cons x xs ih => exact (sortedInsert_perm x (sortStrings xs)).trans (ih.cons x)

/-- Inserting into a sorted list keeps it sorted. -/
theorem sorted_sortedInsert (a : String) (l : List String)
    (h : List.Sorted (fun x y => qLe x y = true) l) :
    List.Sorted (fun x y => qLe x y = true) (sortedInsert a l) := by
  induction l with
  | nil => simp [sortedInsert]
  | cons b bs ih =>
    simp only [sortedInsert]
    by_cases hab : qLe a b = true
    · simp only [hab, if_true]
      refine List.sorted_cons.mpr ⟨fun x hx => ?_, h⟩
      rcases List.mem_cons.mp hx with rfl | hx
      · exact hab
      · exact charListLe_trans _ _ _ hab (List.rel_of_sorted_cons h x hx)
    · simp only [hab, if_false]
      have hba : qLe b a = true := (charListLe_total _ _).resolve_left hab
      refine List.sorted_cons.mpr ⟨fun x hx => ?_, ih (List.sorted_cons.mp h).2⟩
      rcases List.mem_cons.mp ((sortedInsert_perm a bs).mem_iff.mp hx) with rfl | hx
      · exact hba
      · exact List.rel_of_sorted_cons h x hx

/-- The insertion sort sorts under the lexicographic order. -/
theorem sorted_sortStrings (l : List String) :
    List.Sorted (fun x y => qLe x y = true) (sortStrings l) := by
  induction l with
  | nil => simp [sortStrings]
  | cons x xs ih => exact sorted_sortedInsert x (sortStrings xs) ih

/-- Membership through the deduplication accumulator. -/
theorem mem_removeDuplicatesAux :
    ∀ (seen l : List String) (a : String),
      a ∈ removeDuplicatesAux seen l ↔ a ∈ l ∧ a ∉ seen := by
  intro seen l
  induction l generalizing seen with
  | nil => simp [removeDuplicatesAux]
  | cons x xs ih =>
    intro a
    simp only [removeDuplicatesAux]
    by_cases hx : x ∈ seen
    · rw [if_pos hx, ih seen]
      constructor
      · rintro ⟨h1, h2⟩
        exact ⟨List.mem_cons_of_mem _ h1, h2⟩
      · rintro ⟨h1, h2⟩
        rcases List.mem_cons.mp h1 with rfl | h1
        · exact absurd hx h2
        · exact ⟨h1, h2⟩
    · rw [if_neg hx, List.mem_cons, ih (x :: seen)]
      constructor
      · rintro (rfl | ⟨h1, h2⟩)
        · exact ⟨List.mem_cons_self _ _, hx⟩
        · refine ⟨List.mem_cons_of_mem _ h1, fun hm => h2 (List.mem_cons_of_mem _ hm)⟩
      · rintro ⟨h1, h2⟩
        rcases List.mem_cons.mp h1 with rfl | h1
        · exact Or.inl rfl
        · by_cases hax : a = x
          · exact Or.inl hax
          · exact Or.inr ⟨h1, fun hm => (List.mem_cons.mp hm).elim hax h2⟩

/-- Deduplication preserves membership. -/
theorem mem_removeDuplicates (l : List String) (a : String) :
    a ∈ removeDuplicates l ↔ a ∈ l := by
  simp [removeDuplicates, mem_removeDuplicatesAux]

/-- Deduplication leaves no duplicates. -/
theorem nodup_removeDuplicatesAux :
    ∀ (seen l : List String), (removeDuplicatesAux seen l).Nodup := by
  intro seen l
  induction l generalizing seen with
  | nil => simp [removeDuplicatesAux]
  | cons x xs ih =>
    simp only [removeDuplicatesAux]
    by_cases hx : x ∈ seen
    · rw [if_pos hx]; exact ih seen
    · rw [if_neg hx]
      refine List.nodup_cons.mpr ⟨fun hmem => ?_, ih (x :: seen)⟩
      exact ((mem_removeDuplicatesAux _ _ _).mp hmem).2 (List.mem_cons_self _ _)

/-- Deduplicated list of symbols has no duplicates. -/
theorem nodup_removeDuplicates (l : List String) : (removeDuplicates l).Nodup :=
  nodup_removeDuplicatesAux [] l

/-- Fetching the catalog against a transport that answers with an
exchange-info payload reduces to filter, dedup and sort. -/
theorem fetchUsdtSymbols_okPayload (futures testnet : Bool) (timeoutMs : Int)
    (entries : List Json) :
    fetchUsdtSymbols futures testnet timeoutMs (constNet (exchangeInfoPayload entries))
      = ⟨true, sortStrings (removeDuplicates
          (entries.filterMap (collectSymbol futures))), ""⟩ := by
  simp only [fetchUsdtSymbols, constNet, exchangeInfoPayload]
  rw [httpGetJson_okReply]
  simp [objValue, jValueToArrElems, jsonToArrElems]

/-- Claim C5: against an exchange-info payload, the catalog query
succeeds and returns exactly the non-empty symbols of the entries whose
quote asset is USDT, whose upper-cased status is in the allow-list, and
(for futures) whose upper-cased contract type is in the allow-list;
the returned list has no duplicates and is sorted in the lexicographic
order; and the query is deterministic, so two calls on identical input
are identical. -/
theorem fetchUsdtSymbols_catalog (futures testnet : Bool) (timeoutMs : Int)
    (entries : List Json) :
    (fetchUsdtSymbols futures testnet timeoutMs
        (constNet (exchangeInfoPayload entries))).ok = true
    ∧ (∀ s, s ∈ (fetchUsdtSymbols futures testnet timeoutMs
          (constNet (exchangeInfoPayload entries))).symbols
        ↔ ∃ e ∈ entries, collectSymbol futures e = some s)
    ∧ (fetchUsdtSymbols futures testnet timeoutMs
        (constNet (exchangeInfoPayload entries))).symbols.Nodup
    ∧ List.Sorted (fun x y => qLe x y = true)
        (fetchUsdtSymbols futures testnet timeoutMs
          (constNet (exchangeInfoPayload entries))).symbols
    ∧ fetchUsdtSymbols futures testnet timeoutMs (constNet (exchangeInfoPayload entries))
        = fetchUsdtSymbols futures testnet timeoutMs (constNet (exchangeInfoPayload entries)) := by
  rw [fetchUsdtSymbols_okPayload futures testnet timeoutMs entries]
  refine ⟨rfl, fun s => ?_, ?_, sorted_sortStrings _, rfl⟩
  · rw [(sortStrings_perm _).mem_iff, mem_removeDuplicates, List.mem_filterMap]
  · exact ((sortStrings_perm _).nodup_iff).mpr (nodup_removeDuplicates _)

/-- Witness for claim C5 at the spec test payload: one TRADING USDT
perpetual entry and one BREAK entry give exactly the first symbol. -/
theorem fetchUsdtSymbols_catalog_witness :
    (fetchUsdtSymbols true false 10000
        (constNet (exchangeInfoPayload
          [Json.obj [("symbol", Json.str "BTCUSDT"), ("quoteAsset", Json.str "USDT"),
                     ("status", Json.str "TRADING"), ("contractType", Json.str "PERPETUAL")],
           Json.obj [("symbol", Json.str "XRPUSDT"), ("quoteAsset", Json.str "USDT"),
                     ("status", Json.str "BREAK"), ("contractType", Json.str "PERPETUAL")]]))).ok
      = true
    ∧ (fetchUsdtSymbols true false 10000
        (constNet (exchangeInfoPayload
          [Json.obj [("symbol", Json.str "BTCUSDT"), ("quoteAsset", Json.str "USDT"),
                     ("status", Json.str "TRADING"), ("contractType", Json.str "PERPETUAL")],
           Json.obj [("symbol", Json.str "XRPUSDT"), ("quoteAsset", Json.str "USDT"),
                     ("status", Json.str "BREAK"), ("contractType", Json.str "PERPETUAL")]]))).symbols
      = ["BTCUSDT"] :=
  ⟨(fetchUsdtSymbols_catalog true false 10000
      [Json.obj [("symbol", Json.str "BTCUSDT"), ("quoteAsset", Json.str "USDT"),
                 ("status", Json.str "TRADING"), ("contractType", Json.str "PERPETUAL")],
       Json.obj [("symbol", Json.str "XRPUSDT"), ("quoteAsset", Json.str "USDT"),
                 ("status", Json.str "BREAK"), ("contractType", Json.str "PERPETUAL")]]).1,
   by decide⟩
